import Mathlib

/-!
Verification of the btrfs-snapshotter daemon (src/main.rs, src/init.rs).

Shallow embedding conventions:
* Zoned timestamps are modelled as `Int` seconds in a fixed-offset zone:
  `t.yesterday()` is `t - 86400`, minute/second fields derive from the value.
* `usize` counters use `Nat` with an explicit wrap at `2^64` where the source
  can underflow (release-mode two's-complement behaviour of `count -= 1`).
* Strings are `List Char`; Rust's `str::replace` for the concrete patterns
  used by the source (`"/"`, `"__"`, `"___"`) is translated into dedicated
  leftmost, non-overlapping scanners.
* Fallible or panicking paths return `Option` / `Except`.
-/

set_option autoImplicit false

namespace BtrfsSnapshotter

/-- Configuration record, from `struct Config` in src/main.rs lines 16-25.
`minutes` is an `i8` in the source, modelled as `Int`. -/
structure Config where
  minutes : Int
  subvolume_path : String
  subvolume_name : String
  snapshot_path : String
  hourly_limit : Nat
  daily_limit : Nat
  weekly_limit : Nat
  monthly_limit : Nat
  deriving DecidableEq, Repr

/-- Snapshot record, from `struct Snapshot` in src/main.rs lines 27-34.
`time` is the decoded zoned timestamp, modelled as seconds. -/
structure Snapshot where
  snapshot_path : String
  time : Int
  keep_hourly : Bool
  keep_daily : Bool
  keep_weekly : Bool
  keep_monthly : Bool
  deriving DecidableEq, Repr

/-- `Snapshot::keep`, src/main.rs lines 56-60: a record survives iff any tier flag is set. -/
def Snapshot.keep (s : Snapshot) : Bool :=
  s.keep_hourly || s.keep_daily || s.keep_weekly || s.keep_monthly

/-- Decrement of a `usize`: `count -= 1` wraps modulo `2^64` when `count = 0`
(release-mode overflow semantics of the binary). -/
def usizeDec (n : Nat) : Nat :=
  (n + (2 ^ 64 - 1)) % 2 ^ 64

/-- Hourly marking loop, src/main.rs lines 151-157: sets `keep_hourly` on the
first `hourly_limit` entries of the (ascending-sorted) list. -/
def markHourly : Nat → List Snapshot → List Snapshot
  | 0, l => l
  | _ + 1, [] => []
  | n + 1, s :: rest => { s with keep_hourly := true } :: markHourly n rest

/-- Forward time-window scan shared by the daily/weekly/monthly tiers
(src/main.rs lines 164-177, 194-207, 224-237), parameterized by the
flag setter. Scans ascending; a record with `time <= boundary` is marked;
on `count == 1` the loop breaks, otherwise `count` is decremented (wrapping)
and the boundary steps back one day. Returns the updated list and the final
`count`. -/
def forwardPass (set : Snapshot → Snapshot) : Nat → Int → List Snapshot → List Snapshot × Nat
  | count, _, [] => ([], count)
  | count, time, s :: rest =>
    if s.time ≤ time then
      if count = 1 then (set s :: rest, count)
      else
        let r := forwardPass set (usizeDec count) (time - 86400) rest
        (set s :: r.1, r.2)
    else
      let r := forwardPass set count time rest
      (s :: r.1, r.2)

/-- Back-fill scan shared by the three tiers (src/main.rs lines 178-187,
208-217, 238-247), acting on the reversed list: while `count != 0`, mark any
record whose tier flag is still unset, decrementing `count` per mark. -/
def backfillPass (get : Snapshot → Bool) (set : Snapshot → Snapshot) :
    Nat → List Snapshot → List Snapshot × Nat
  | count, [] => ([], count)
  | count, s :: rest =>
    if count = 0 then (s :: rest, count)
    else if get s = false then
      let r := backfillPass get set (count - 1) rest
      (set s :: r.1, r.2)
    else
      let r := backfillPass get set count rest
      (s :: r.1, r.2)

/-- One daily/weekly/monthly tier: the forward scan followed by the reverse
back-fill scan (`iter_mut().rev()` is modelled by reversing, scanning, and
reversing back). -/
def tierPass (get : Snapshot → Bool) (set : Snapshot → Snapshot)
    (limit : Nat) (boundary : Int) (l : List Snapshot) : List Snapshot :=
  (backfillPass get set (forwardPass set limit boundary l).2
    (forwardPass set limit boundary l).1.reverse).1.reverse

/-- The classification guard and the four tier passes, src/main.rs lines
150-247. `snapshot_time` is the scheduled time of the cycle; each tier starts
from the boundary `snapshot_time.yesterday()`. When the inventory is smaller
than `hourly_limit`, the list is returned untouched. -/
def classify (cfg : Config) (snapshot_time : Int) (l : List Snapshot) : List Snapshot :=
  if cfg.hourly_limit ≤ l.length then
    tierPass (fun s => s.keep_monthly) (fun s => { s with keep_monthly := true })
      cfg.monthly_limit (snapshot_time - 86400)
      (tierPass (fun s => s.keep_weekly) (fun s => { s with keep_weekly := true })
        cfg.weekly_limit (snapshot_time - 86400)
        (tierPass (fun s => s.keep_daily) (fun s => { s with keep_daily := true })
          cfg.daily_limit (snapshot_time - 86400)
          (markHourly cfg.hourly_limit l)))
  else l

/-- Records handed to `delete_btrfs_snapshot`, src/main.rs lines 249-256:
inside the same guard, every classified record with no flag set. -/
def deletions (cfg : Config) (snapshot_time : Int) (l : List Snapshot) : List Snapshot :=
  if cfg.hourly_limit ≤ l.length then
    (classify cfg snapshot_time l).filter (fun s => s.keep = false)
  else []

/-- Helper for concrete inputs: an unflagged record at time `t` (the shape the
inventory loop constructs, src/main.rs lines 136-145). -/
def snap (t : Int) : Snapshot :=
  { snapshot_path := "", time := t, keep_hourly := false, keep_daily := false,
    keep_weekly := false, keep_monthly := false }

/-- The hard-coded configuration built in `main`, src/main.rs lines 66-75. -/
def mainConfig : Config :=
  { minutes := 0, subvolume_path := "/", subvolume_name := "@rootfs",
    snapshot_path := "/snapshots", hourly_limit := 12, daily_limit := 7,
    weekly_limit := 2, monthly_limit := 2 }

/-- Resetting the four tier flags of one record, as the inventory rebuild of
each cycle does when it constructs records afresh. -/
def clearOne (s : Snapshot) : Snapshot :=
  { s with keep_hourly := false, keep_daily := false, keep_weekly := false,
           keep_monthly := false }

/-- Resetting the flags of a whole record list. -/
def clearFlags (l : List Snapshot) : List Snapshot :=
  l.map clearOne

/-- Concrete configuration exercising the daily tier: two hourly slots, one
daily slot, two weekly and two monthly slots. -/
def cfgC2 : Config :=
  { minutes := 0, subvolume_path := "", subvolume_name := "", snapshot_path := "",
    hourly_limit := 2, daily_limit := 1, weekly_limit := 2, monthly_limit := 2 }

/-- Concrete configuration with every tier limit equal to one. -/
def cfgC7 : Config :=
  { minutes := 0, subvolume_path := "", subvolume_name := "", snapshot_path := "",
    hourly_limit := 1, daily_limit := 1, weekly_limit := 1, monthly_limit := 1 }

/-- Concrete sorted inventory of two old records. -/
def invC2 : List Snapshot := [snap 100, snap 200]

/-- Concrete sorted inventory of three old records. -/
def invC7 : List Snapshot := [snap 100, snap 200, snap 300]

/-- Concrete sorted inventory of thirteen records one second apart. -/
def inv13 : List Snapshot := (List.range 13).map (fun i => snap i)

/-! ### Scheduler (src/main.rs lines 76-104)

Zoned time is modelled as `Nat` seconds of a fixed-offset civil clock, already
truncated to second precision (the source truncates both `Zoned::now()` reads
with `RoundMode::Trunc`); the two consecutive `Zoned::now()` reads are
modelled as the same instant `now`. -/

/-- Minute field of a second-precision timestamp. -/
def minuteOf (t : Nat) : Nat := t % 3600 / 60

/-- Second field of a second-precision timestamp. -/
def secondOf (t : Nat) : Nat := t % 60

/-- The candidate `now.with().minute(m).second(0).build()`: jiff's builder
succeeds exactly when the minute lies in `[0, 59]` and otherwise errors, which
the source turns into a panic via `.expect("Timestamp should be valid.")`. -/
def buildWithMinute (now : Nat) (m : Int) : Option Nat :=
  if 0 ≤ m ∧ m ≤ 59 then some (now / 3600 * 3600 + m.toNat * 60) else none

/-- First scheduled instant, src/main.rs lines 83-104: build the candidate;
if it lies strictly before `now` (`start_to_first_snapshot.is_negative()`)
add one hour. `none` models the builder panic. -/
def firstSnapshotTime (now : Nat) (m : Int) : Option Nat :=
  match buildWithMinute now m with
  | none => none
  | some cand => some (if cand < now then cand + 3600 else cand)

/-! ### Name codec (src/main.rs lines 109-112 and 135-140) -/

/-- Rust `s.replace("/", "__")` used when encoding the snapshot directory
name, src/main.rs line 111. -/
def escapeSlash : List Char → List Char
  | [] => []
  | c :: rest => if c = '/' then '_' :: '_' :: escapeSlash rest else c :: escapeSlash rest

/-- Rust `s.replace("__", "/")` used when decoding, src/main.rs line 138:
leftmost, non-overlapping replacement. -/
def unescape : List Char → List Char
  | c₁ :: c₂ :: rest =>
    if c₁ = '_' ∧ c₂ = '_' then '/' :: unescape rest
    else c₁ :: unescape (c₂ :: rest)
  | l => l

/-- Whether two adjacent underscores occur somewhere in the string. -/
def hasDU : List Char → Bool
  | c₁ :: c₂ :: rest => (c₁ = '_' && c₂ = '_') || hasDU (c₂ :: rest)
  | _ => false

/-- Whether an underscore immediately followed by a slash occurs somewhere. -/
def hasUS : List Char → Bool
  | c₁ :: c₂ :: rest => (c₁ = '_' && c₂ = '/') || hasUS (c₂ :: rest)
  | _ => false

/-- Encoding of a snapshot directory name, src/main.rs lines 110-112:
`subvolume_name + "-" + timestamp.to_string().replace("/", "__")`, acting on
the timestamp's canonical string form `ts`. -/
def encodeDirName (name ts : List Char) : List Char :=
  name ++ '-' :: escapeSlash ts

/-- Decoding, src/main.rs lines 135-140: the entry must start with
`subvolume_name + "-"`; the whole directory name then has `"__"` replaced by
`"/"` and is sliced from the byte length of the unreplaced `subvolume_name + "-"`.
The result is the string handed to jiff's parser. -/
def decodeDirName (dirname name : List Char) : Option (List Char) :=
  if (name ++ ['-']).isPrefixOf dirname then
    some ((unescape dirname).drop (name ++ ['-']).length)
  else none

/-- Canonical-form condition satisfied by every jiff `Zoned` render: the only
underscores appear singly inside IANA zone-name components (e.g.
`America/New_York`), so the render contains neither `"__"` nor `"_/"`. -/
def tsCanonical (ts : List Char) : Bool :=
  !hasDU ts && !hasUS ts

/-! ### Inventory (src/main.rs lines 121-148 and 268-288) -/

/-- A directory entry under the snapshot root, as seen by `read_dir`. -/
structure DirEntry where
  path : List Char
  isDir : Bool
  deriving DecidableEq, Repr

/-- Rust `s.replace("___", "/")` in `btrfs_snapshots`, src/main.rs line 282:
leftmost, non-overlapping replacement of a triple underscore. -/
def replaceTU : List Char → List Char
  | c₁ :: c₂ :: c₃ :: rest =>
    if c₁ = '_' ∧ c₂ = '_' ∧ c₃ = '_' then '/' :: replaceTU rest
    else c₁ :: replaceTU (c₂ :: c₃ :: rest)
  | l => l

/-- Whether a triple underscore occurs somewhere in the string. -/
def hasTU : List Char → Bool
  | c₁ :: c₂ :: c₃ :: rest => (c₁ = '_' && c₂ = '_' && c₃ = '_') || hasTU (c₂ :: c₃ :: rest)
  | _ => false

/-- `btrfs_snapshots`, src/main.rs lines 268-288: keep the immediate child
directories, recording each path with `"___"` replaced by `"/"`. -/
def btrfs_snapshots : List DirEntry → List (List Char)
  | [] => []
  | e :: rest =>
    if e.isDir then replaceTU e.path :: btrfs_snapshots rest
    else btrfs_snapshots rest

/-- Rust `Path::file_name` for the paths at hand: the part after the last `/`. -/
def lastComponent (p : List Char) : List Char :=
  ((p.reverse.takeWhile (fun c => c ≠ '/')).reverse)

/-- The matching loop of the cycle, src/main.rs lines 128-147, parameterized
by jiff's timestamp parser `pt`. An entry whose directory name starts with
`subvolume_name + "-"` (passed here as `svn`) has the decoded remainder
parsed; the source unwraps the parse with
`.expect("Time string should be parsed by jiff.")`, so a parse failure
aborts the process, modelled as `Except.error`. -/
def collectMatching (pt : List Char → Option Int) (svn : List Char) :
    List (List Char) → Except String (List Snapshot)
  | [] => .ok []
  | p :: rest =>
    let dirname := lastComponent p
    if svn.isPrefixOf dirname then
      match pt ((unescape dirname).drop svn.length) with
      | some t =>
        match collectMatching pt svn rest with
        | .ok l => .ok ({ snapshot_path := String.mk p, time := t, keep_hourly := false,
                          keep_daily := false, keep_weekly := false,
                          keep_monthly := false } :: l)
        | .error e => .error e
      | none => .error "Time string should be parsed by jiff."
    else collectMatching pt svn rest

/-! ### Configuration loading (src/init.rs lines 20-30 and 72-120) -/

/-- The optional fields deserialized from the TOML file, src/init.rs lines 20-30. -/
structure TempConfig where
  minutes : Option Int
  subvolume_path : Option String
  subvolume_name : Option String
  snapshot_path : Option String
  hourly_limit : Option Nat
  daily_limit : Option Nat
  weekly_limit : Option Nat
  monthly_limit : Option Nat
  deriving DecidableEq, Repr

/-- Modelled from the spec: `load_config` (src/init.rs line 93) calls
`Config::default()`, but no `Default` implementation for `Config` exists
anywhere under src; the spec says every option has a documented default, and
these defaults are taken to be the values `main` hard-codes
(src/main.rs lines 66-75). -/
def Config.defaultConfig : Config :=
  { minutes := 0, subvolume_path := "/", subvolume_name := "@rootfs",
    snapshot_path := "/snapshots", hourly_limit := 12, daily_limit := 7,
    weekly_limit := 2, monthly_limit := 2 }

/-- The `if let Some(x)` override chain of `load_config`, src/init.rs lines 94-117. -/
def applyTemp (base : Config) (t : TempConfig) : Config :=
  { minutes := (match t.minutes with | some x => x | none => base.minutes),
    subvolume_path := (match t.subvolume_path with | some x => x | none => base.subvolume_path),
    subvolume_name := (match t.subvolume_name with | some x => x | none => base.subvolume_name),
    snapshot_path := (match t.snapshot_path with | some x => x | none => base.snapshot_path),
    hourly_limit := (match t.hourly_limit with | some x => x | none => base.hourly_limit),
    daily_limit := (match t.daily_limit with | some x => x | none => base.daily_limit),
    weekly_limit := (match t.weekly_limit with | some x => x | none => base.weekly_limit),
    monthly_limit := (match t.monthly_limit with | some x => x | none => base.monthly_limit) }

/-- `load_config`, src/init.rs lines 72-120: `file` is the result of reading
`/etc/btrfs-snapshotter/config.toml` (`none` = read error, e.g. a missing
file) and `parseToml` models `toml::from_slice`. Both failure branches call
`std::process::exit(1)`, modelled as `Except.error 1`. -/
def load_config (file : Option String) (parseToml : String → Option TempConfig) :
    Except Nat Config :=
  match file with
  | none => .error 1
  | some s =>
    match parseToml s with
    | none => .error 1
    | some tc => .ok (applyTemp Config.defaultConfig tc)

/-! ## Auxiliary lemmas -/

/-- An initial segment passes `isPrefixOf`. -/
theorem isPrefixOf_append_self : ∀ (l m : List Char), (l.isPrefixOf (l ++ m)) = true
  | [], m => by simp [List.isPrefixOf]
  | a :: l, m => by simp [List.isPrefixOf, isPrefixOf_append_self l m]

/-- A list all of whose elements satisfy the test is kept whole by `takeWhile`. -/
theorem takeWhile_of_all {α : Type} (q : α → Bool) :
    ∀ l : List α, (∀ a ∈ l, q a = true) → l.takeWhile q = l
  | [], _ => rfl
  | a :: l, h => by
    have ha : q a = true := h a (by simp)
    have ht : ∀ b ∈ l, q b = true := fun b hb => h b (List.mem_cons_of_mem a hb)
    simp [List.takeWhile_cons, ha, takeWhile_of_all q l ht]

/-- On a slash-free string, `lastComponent` is the identity. -/
theorem lastComponent_eq_self {p : List Char} (h : '/' ∉ p) : lastComponent p = p := by
  unfold lastComponent
  rw [takeWhile_of_all _ p.reverse ?_, List.reverse_reverse]
  intro a ha
  have hmem : a ∈ p := List.mem_reverse.mp ha
  simp only [ne_eq, decide_eq_true_eq]
  intro he
  exact h (he ▸ hmem)

/-- Length never grows under the triple-underscore replacement. -/
theorem replaceTU_length_le : ∀ l : List Char, (replaceTU l).length ≤ l.length
  | [] => by simp [replaceTU]
  | [c] => by simp [replaceTU]
  | [c₁, c₂] => by simp [replaceTU]
  | c₁ :: c₂ :: c₃ :: rest => by
    rw [replaceTU]
    by_cases hc : c₁ = '_' ∧ c₂ = '_' ∧ c₃ = '_'
    · rw [if_pos hc]
      have := replaceTU_length_le rest
      simp only [List.length_cons]
      omega
    · rw [if_neg hc]
      have := replaceTU_length_le (c₂ :: c₃ :: rest)
      simp only [List.length_cons] at *
      omega

/-- Without a triple underscore the replacement is the identity. -/
theorem replaceTU_eq_of_no_tu : ∀ l : List Char, hasTU l = false → replaceTU l = l
  | [], _ => by simp [replaceTU]
  | [c], _ => by simp [replaceTU]
  | [c₁, c₂], _ => by simp [replaceTU]
  | c₁ :: c₂ :: c₃ :: rest, h => by
    have h1 : ¬(c₁ = '_' ∧ c₂ = '_' ∧ c₃ = '_') := by
      intro hc
      obtain ⟨e1, e2, e3⟩ := hc
      subst e1; subst e2; subst e3
      simp [hasTU] at h
    have h2 : hasTU (c₂ :: c₃ :: rest) = false := by
      rw [hasTU] at h
      exact (Bool.or_eq_false_iff.mp h).2
    rw [replaceTU, if_neg h1, replaceTU_eq_of_no_tu (c₂ :: c₃ :: rest) h2]

/-- With a triple underscore somewhere, the replacement strictly shortens. -/
theorem replaceTU_length_lt_of_tu : ∀ l : List Char, hasTU l = true → (replaceTU l).length < l.length
  | [], h => by simp [hasTU] at h
  | [c], h => by simp [hasTU] at h
  | [c₁, c₂], h => by simp [hasTU] at h
  | c₁ :: c₂ :: c₃ :: rest, h => by
    rw [replaceTU]
    by_cases hc : c₁ = '_' ∧ c₂ = '_' ∧ c₃ = '_'
    · rw [if_pos hc]
      have := replaceTU_length_le rest
      simp only [List.length_cons]
      omega
    · rw [if_neg hc]
      have h2 : hasTU (c₂ :: c₃ :: rest) = true := by
        rw [hasTU] at h
        simp only [Bool.or_eq_true, Bool.and_eq_true, decide_eq_true_eq] at h
        rcases h with ⟨⟨e1, e2⟩, e3⟩ | hb
        · exact absurd ⟨e1, e2, e3⟩ hc
        · exact hb
      have := replaceTU_length_lt_of_tu (c₂ :: c₃ :: rest) h2
      simp only [List.length_cons] at *
      omega

/-- The listing loop of `btrfs_snapshots` is a filter of the directories
followed by the path replacement. -/
theorem btrfs_snapshots_eq (entries : List DirEntry) :
    btrfs_snapshots entries
      = (entries.filter (fun e => e.isDir)).map (fun e => replaceTU e.path) := by
  induction entries with
  | nil => rfl
  | cons e rest ih =>
    cases hb : e.isDir <;> simp [btrfs_snapshots, List.filter_cons, hb, ih]

/-! ## Claim theorems -/

/-- C6: if the inventory of matching snapshots has fewer than `hourly_limit`
records, the classifier returns the record list unchanged (so no record
receives any keep flag) and the deletion pass deletes nothing. -/
theorem hourly_guard_no_flags_no_deletions (cfg : Config) (t : Int) (l : List Snapshot)
    (h : l.length < cfg.hourly_limit) :
    classify cfg t l = l ∧ deletions cfg t l = [] := by
  have hn : ¬ cfg.hourly_limit ≤ l.length := by omega
  exact ⟨by simp [classify, hn], by simp [deletions, hn]⟩

/-- Witness for C6 at a concrete ramp-up inventory. -/
theorem hourly_guard_no_flags_no_deletions_witness :
    classify mainConfig 1000000 [snap 100] = [snap 100]
      ∧ deletions mainConfig 1000000 [snap 100] = [] :=
  hourly_guard_no_flags_no_deletions mainConfig 1000000 [snap 100] (by decide)

/-- C1 (code evaluation): with the program's own configuration
(`hourly_limit = 12`) and a sorted inventory of thirteen records, the
classifier sets `keep_hourly` on the twelve OLDEST records and leaves the
most recent record unflagged — the opposite of the claimed
"`hourly_limit` most recent records". -/
theorem hourly_marks_oldest_records_eval :
    (classify mainConfig 1000000 inv13).map (fun s => s.keep_hourly)
      = List.replicate 12 true ++ [false] := by decide

/-- C2 (code evaluation): with `hourly_limit = 2` and `daily_limit = 1` on a
two-record inventory whose records are both older than one day, the daily
tier ends with 2 flagged records although `min(daily_limit, inventory size)`
is 1: the forward scan breaks with `count == 1` and the back-fill pass marks
one extra record. -/
theorem daily_tier_overfill_eval :
    (classify cfgC2 1000000 invC2).countP (fun s => s.keep_daily) = 2
      ∧ min cfgC2.daily_limit invC2.length = 1 := by decide

/-- C5: for every configured minute offset in `[0, 59]` and every current
time, the first scheduled instant exists, is at or after the current time
(truncated to the second), and carries the configured minute with a zero
second field. -/
theorem first_schedule_aligned (now : Nat) (m : Int) (h0 : 0 ≤ m) (h59 : m ≤ 59) :
    ∃ t, firstSnapshotTime now m = some t ∧ now ≤ t
      ∧ minuteOf t = m.toNat ∧ secondOf t = 0 := by
  unfold firstSnapshotTime buildWithMinute
  rw [if_pos ⟨h0, h59⟩]
  refine ⟨_, rfl, ?_, ?_, ?_⟩
  · split <;> omega
  · unfold minuteOf
    split <;> omega
  · unfold secondOf
    split <;> omega

/-- Witness for C5 at `now = 7322` (02:02:02) and offset 30. -/
theorem first_schedule_aligned_witness :
    ∃ t, firstSnapshotTime 7322 30 = some t ∧ 7322 ≤ t
      ∧ minuteOf t = Int.toNat 30 ∧ secondOf t = 0 :=
  first_schedule_aligned 7322 30 (by decide) (by decide)

/-- C9 (counterexample): a negative configured minute offset is not resolved
to "before the hour" — the timestamp construction fails (the source panics on
`.expect("Timestamp should be valid.")`), so the failure branch is reachable
for an offset the `i8` configuration field admits. -/
theorem negative_minutes_fail_counterexample :
    firstSnapshotTime 1000 (-5) = none := by decide

/-- C9 (amended): only offsets in `[0, 59]` are accepted by the timestamp
builder; for those the first schedule point always exists. -/
theorem schedule_point_exists_in_range (now : Nat) (m : Int) (h0 : 0 ≤ m) (h59 : m ≤ 59) :
    (firstSnapshotTime now m).isSome = true := by
  unfold firstSnapshotTime buildWithMinute
  rw [if_pos ⟨h0, h59⟩]
  rfl

/-- Witness for the amended C9 at a concrete instant and offset. -/
theorem schedule_point_exists_in_range_witness :
    (firstSnapshotTime 1000 59).isSome = true :=
  schedule_point_exists_in_range 1000 59 (by decide) (by decide)

/-- C8 (code evaluation): `load_config` treats a missing file as fatal
(exit code 1), and applies the documented defaults under overrides — a file
setting `minutes = 30` yields the default configuration with `minutes = 30`.
But the configuration `main` actually runs with is hard-coded
(src/main.rs lines 66-75, `minutes = 0`); `main` never calls
`init::load_config`, so the configuration file is never read at startup. -/
theorem load_config_dead_code_eval :
    load_config none (fun _ => none) = .error 1
      ∧ load_config (some "minutes = 30")
          (fun _ => some ⟨some 30, none, none, none, none, none, none, none⟩)
          = .ok { Config.defaultConfig with minutes := 30 }
      ∧ mainConfig.minutes = 0 :=
  ⟨rfl, rfl, rfl⟩

/-- C3 (code evaluation): a directory entry whose name starts with the
subvolume naming `subvolume_name + "-"` but whose remainder fails the
timestamp parse makes the collection loop abort the whole process (the
source unwraps the parse with `.expect`), instead of skipping the entry. -/
theorem undecodable_entry_fatal_eval (pt : List Char → Option Int) (name sfx : List Char)
    (h1 : '/' ∉ name) (h2 : '/' ∉ sfx)
    (h3 : pt ((unescape (name ++ '-' :: sfx)).drop (name.length + 1)) = none) :
    collectMatching pt (name ++ ['-']) [name ++ '-' :: sfx]
      = .error "Time string should be parsed by jiff." := by
  have hslash : '/' ∉ name ++ '-' :: sfx := by
    simp only [List.mem_append, List.mem_cons]
    push_neg
    exact ⟨h1, by decide, h2⟩
  have hlc : lastComponent (name ++ '-' :: sfx) = name ++ '-' :: sfx :=
    lastComponent_eq_self hslash
  have hpre : (name ++ ['-']).isPrefixOf (name ++ '-' :: sfx) = true := by
    have he : name ++ '-' :: sfx = (name ++ ['-']) ++ sfx := by simp
    rw [he]
    exact isPrefixOf_append_self _ _
  have hlen : (name ++ ['-']).length = name.length + 1 := by simp
  simp only [collectMatching, hlc, hpre, if_true, hlen, h3]

/-- Witness for the C3 evaluation at a concrete corrupted entry. -/
theorem undecodable_entry_fatal_eval_witness :
    collectMatching (fun _ => none) (['@', 'r'] ++ ['-']) [['@', 'r'] ++ '-' :: ['b', 'a', 'd']]
      = .error "Time string should be parsed by jiff." :=
  undecodable_entry_fatal_eval (fun _ => none) ['@', 'r'] ['b', 'a', 'd']
    (by decide) (by decide) rfl

/-- C10: the snapshot listing keeps exactly the child directories, recording
each path with every `"___"` replaced by `"/"`; a path without a triple
underscore is returned unchanged, and a path with one is recorded as a
different path than the on-disk one. -/
theorem inventory_listing_triple_underscore :
    (∀ entries : List DirEntry,
        btrfs_snapshots entries
          = (entries.filter (fun e => e.isDir)).map (fun e => replaceTU e.path))
      ∧ (∀ p : List Char, hasTU p = false → replaceTU p = p)
      ∧ (∀ p : List Char, hasTU p = true → replaceTU p ≠ p) := by
  refine ⟨btrfs_snapshots_eq, replaceTU_eq_of_no_tu, ?_⟩
  intro p hp he
  have := replaceTU_length_lt_of_tu p hp
  rw [he] at this
  omega

/-- Witness for C10 at a concrete directory listing and concrete paths. -/
theorem inventory_listing_triple_underscore_witness :
    btrfs_snapshots [⟨"x___y".toList, true⟩, ⟨"n".toList, false⟩]
        = (([⟨"x___y".toList, true⟩, ⟨"n".toList, false⟩] : List DirEntry).filter
            (fun e => e.isDir)).map (fun e => replaceTU e.path)
      ∧ replaceTU "plain".toList = "plain".toList
      ∧ replaceTU "a___b".toList ≠ "a___b".toList :=
  ⟨inventory_listing_triple_underscore.1 _,
   inventory_listing_triple_underscore.2.1 _ (by decide),
   inventory_listing_triple_underscore.2.2 _ (by decide)⟩

/-! ## Name-codec lemmas (claim C4) -/

/-- A head other than an underscore never takes part in a `"__"` match. -/
theorem unescape_cons_of_ne {c : Char} (hc : c ≠ '_') :
    ∀ l : List Char, unescape (c :: l) = c :: unescape l
  | [] => by simp [unescape]
  | x :: xs => by rw [unescape, if_neg (fun h => hc h.1)]

/-- Tails of double-underscore-free strings are double-underscore-free. -/
theorem hasDU_tail {c : Char} {l : List Char} (h : hasDU (c :: l) = false) :
    hasDU l = false := by
  cases l with
  | nil => simp [hasDU]
  | cons d rest =>
    rw [hasDU] at h
    exact (Bool.or_eq_false_iff.mp h).2

/-- Tails of `"_/"`-free strings are `"_/"`-free. -/
theorem hasUS_tail {c : Char} {l : List Char} (h : hasUS (c :: l) = false) :
    hasUS l = false := by
  cases l with
  | nil => simp [hasUS]
  | cons d rest =>
    rw [hasUS] at h
    exact (Bool.or_eq_false_iff.mp h).2

/-- Decoding undoes the slash escaping on strings that contain neither a
double underscore nor an underscore directly before a slash. -/
theorem unescape_escapeSlash :
    ∀ l : List Char, hasDU l = false → hasUS l = false → unescape (escapeSlash l) = l
  | [], _, _ => by simp [escapeSlash, unescape]
  | c :: rest, hdu, hus => by
    by_cases hcs : c = '/'
    · subst hcs
      rw [escapeSlash, if_pos rfl, unescape, if_pos ⟨rfl, rfl⟩,
        unescape_escapeSlash rest (hasDU_tail hdu) (hasUS_tail hus)]
    · rw [escapeSlash, if_neg hcs]
      by_cases hcu : c = '_'
      · subst hcu
        cases rest with
        | nil => simp [escapeSlash, unescape]
        | cons d rs =>
          have hdu' : d ≠ '_' := by
            intro hdd
            subst hdd
            simp [hasDU] at hdu
          have hds : d ≠ '/' := by
            intro hdd
            subst hdd
            simp [hasUS] at hus
          have hrec := unescape_escapeSlash (d :: rs) (hasDU_tail hdu) (hasUS_tail hus)
          rw [escapeSlash, if_neg hds] at hrec ⊢
          rw [unescape, if_neg (fun h => hdu' h.2), hrec]
      · rw [unescape_cons_of_ne hcu,
          unescape_escapeSlash rest (hasDU_tail hdu) (hasUS_tail hus)]

/-- Decoding leaves a double-underscore-free name followed by the `'-'`
separator intact and proceeds on the remainder. -/
theorem unescape_append_dash :
    ∀ (l₁ l₂ : List Char), hasDU l₁ = false →
      unescape (l₁ ++ '-' :: l₂) = l₁ ++ '-' :: unescape l₂
  | [], l₂, _ => by
    rw [List.nil_append, unescape_cons_of_ne (by decide), List.nil_append]
  | [c], l₂, _ => by
    simp only [List.cons_append, List.nil_append]
    rw [unescape, if_neg (fun h => absurd h.2 (by decide)),
      unescape_cons_of_ne (by decide)]
  | c :: d :: rest, l₂, h => by
    have hnd : ¬(c = '_' ∧ d = '_') := by
      intro hh
      rw [hasDU] at h
      simp [hh.1, hh.2] at h
    have ih := unescape_append_dash (d :: rest) l₂ (hasDU_tail h)
    simp only [List.cons_append] at ih ⊢
    rw [unescape, if_neg hnd, ih]

/-- C4 (amended): the name codec round-trips for every subvolume name that
contains no path separator AND no double underscore, on every canonical
timestamp render. -/
theorem codec_roundtrip_amended (name ts : List Char)
    (_hslash : '/' ∉ name) (hdu : hasDU name = false) (hts : tsCanonical ts = true) :
    decodeDirName (encodeDirName name ts) name = some ts := by
  have hts' : hasDU ts = false ∧ hasUS ts = false := by
    unfold tsCanonical at hts
    rw [Bool.and_eq_true, Bool.not_eq_true', Bool.not_eq_true'] at hts
    exact hts
  unfold decodeDirName encodeDirName
  have hpre : (name ++ ['-']).isPrefixOf (name ++ '-' :: escapeSlash ts) = true := by
    have he : name ++ '-' :: escapeSlash ts = (name ++ ['-']) ++ escapeSlash ts := by simp
    rw [he]
    exact isPrefixOf_append_self _ _
  rw [if_pos hpre, unescape_append_dash name (escapeSlash ts) hdu,
    unescape_escapeSlash ts hts'.1 hts'.2]
  have he₂ : name ++ '-' :: ts = (name ++ ['-']) ++ ts := by simp
  rw [he₂, List.drop_left]

/-- Witness for the amended C4 at the program's default subvolume name and a
canonical zoned render. -/
theorem codec_roundtrip_amended_witness :
    decodeDirName
        (encodeDirName "@rootfs".toList "2026-01-01T00:00:00+11:00[Australia/Sydney]".toList)
        "@rootfs".toList
      = some "2026-01-01T00:00:00+11:00[Australia/Sydney]".toList :=
  codec_roundtrip_amended "@rootfs".toList "2026-01-01T00:00:00+11:00[Australia/Sydney]".toList
    (by decide) (by decide) (by decide)

/-- C4 (counterexample): the claim as stated fails for the subvolume name
`a__b`, which contains no path separator: decoding replaces the name's own
double underscore with a slash, the byte-length slice then cuts into the
timestamp, and the round-trip is lost. -/
theorem codec_roundtrip_counterexample :
    '/' ∉ "a__b".toList
      ∧ tsCanonical "2026-01-01T00:00:00+00:00[UTC]".toList = true
      ∧ decodeDirName
          (encodeDirName "a__b".toList "2026-01-01T00:00:00+00:00[UTC]".toList)
          "a__b".toList
        ≠ some "2026-01-01T00:00:00+00:00[UTC]".toList :=
  ⟨by decide, by decide, by decide⟩

/-! ## Classifier flag-preservation lemmas (claim C7) -/

/-- Marking the hourly window does not change the flag-cleared image. -/
theorem markHourly_map_clearOne :
    ∀ (n : Nat) (l : List Snapshot), (markHourly n l).map clearOne = l.map clearOne
  | 0, l => rfl
  | _ + 1, [] => rfl
  | n + 1, s :: rest => by
    rw [markHourly]
    simp [clearOne, markHourly_map_clearOne n rest]

/-- The forward tier scan does not change the flag-cleared image. -/
theorem forwardPass_map_clearOne (set : Snapshot → Snapshot)
    (hset : ∀ s, clearOne (set s) = clearOne s) :
    ∀ (c : Nat) (t : Int) (l : List Snapshot),
      ((forwardPass set c t l).1).map clearOne = l.map clearOne
  | _, _, [] => rfl
  | c, t, s :: rest => by
    rw [forwardPass]
    by_cases h1 : s.time ≤ t
    · by_cases h2 : c = 1
      · simp [if_pos h1, if_pos h2, hset]
      · have ih := forwardPass_map_clearOne set hset (usizeDec c) (t - 86400) rest
        simp [if_pos h1, if_neg h2, hset, ih]
    · have ih := forwardPass_map_clearOne set hset c t rest
      simp [if_neg h1, ih]

/-- The back-fill scan does not change the flag-cleared image. -/
theorem backfillPass_map_clearOne (get : Snapshot → Bool) (set : Snapshot → Snapshot)
    (hset : ∀ s, clearOne (set s) = clearOne s) :
    ∀ (c : Nat) (l : List Snapshot),
      ((backfillPass get set c l).1).map clearOne = l.map clearOne
  | _, [] => rfl
  | c, s :: rest => by
    rw [backfillPass]
    by_cases h0 : c = 0
    · simp [if_pos h0]
    · by_cases hg : get s = false
      · have ih := backfillPass_map_clearOne get set hset (c - 1) rest
        simp [if_neg h0, if_pos hg, hset, ih]
      · have ih := backfillPass_map_clearOne get set hset c rest
        simp [if_neg h0, if_neg hg, ih]

/-- A whole tier pass does not change the flag-cleared image. -/
theorem tierPass_map_clearOne (get : Snapshot → Bool) (set : Snapshot → Snapshot)
    (hset : ∀ s, clearOne (set s) = clearOne s) (lim : Nat) (b : Int) (l : List Snapshot) :
    (tierPass get set lim b l).map clearOne = l.map clearOne := by
  unfold tierPass
  rw [List.map_reverse, backfillPass_map_clearOne get set hset, List.map_reverse,
    List.reverse_reverse, forwardPass_map_clearOne set hset]

/-- Classification only writes flags: the flag-cleared image of the output
equals the flag-cleared image of the input. -/
theorem classify_map_clearOne (cfg : Config) (t : Int) (l : List Snapshot) :
    (classify cfg t l).map clearOne = l.map clearOne := by
  unfold classify
  by_cases h : cfg.hourly_limit ≤ l.length
  · rw [if_pos h,
      tierPass_map_clearOne (fun s => s.keep_monthly)
        (fun s => { s with keep_monthly := true }) (fun s => rfl),
      tierPass_map_clearOne (fun s => s.keep_weekly)
        (fun s => { s with keep_weekly := true }) (fun s => rfl),
      tierPass_map_clearOne (fun s => s.keep_daily)
        (fun s => { s with keep_daily := true }) (fun s => rfl),
      markHourly_map_clearOne]
  · rw [if_neg h]

/-- C7 (counterexample): the classifier is not idempotent — re-running it
directly on its own flagged output marks additional records, because the
back-fill scan skips records it itself flagged in the first run. -/
theorem classify_not_idempotent_counterexample :
    classify cfgC7 1000000 (classify cfgC7 1000000 invC7)
      ≠ classify cfgC7 1000000 invC7 := by decide

/-- C7 (amended): within one inventory snapshot the classifier is idempotent
up to the flag reset that every cycle's fresh re-collection performs: for an
initially unflagged record list, clearing the classifier's output and
re-classifying reproduces the first result exactly. -/
theorem classify_idem_after_clear (cfg : Config) (t : Int) (l : List Snapshot)
    (h : clearFlags l = l) :
    classify cfg t (clearFlags (classify cfg t l)) = classify cfg t l := by
  have h2 : clearFlags (classify cfg t l) = l := by
    unfold clearFlags at h ⊢
    rw [classify_map_clearOne, h]
  rw [h2]

/-- Witness for the amended C7 at the concrete three-record inventory. -/
theorem classify_idem_after_clear_witness :
    classify cfgC7 1000000 (clearFlags (classify cfgC7 1000000 invC7))
      = classify cfgC7 1000000 invC7 :=
  classify_idem_after_clear cfgC7 1000000 invC7 (by decide)

end BtrfsSnapshotter
